import Mathlib

/-!
Shallow embedding of `src/utils/metric.py` (class `ConfusionMatrix`):
a streaming confusion-matrix accumulator with derived IoU metrics,
a bulk loader over paired label streams, and a text renderer.

Python integers are modelled as `Int`, the numpy count table as a
`List (List Nat)` (counts are non-negative integers; the numpy float64
storage is exact on them), float division in the IoU computation as
exact division in `ℚ`, and raised exceptions as `Option`/explicit
result constructors.
-/

namespace Metric

/-- State of a `ConfusionMatrix` object: the `num_classes` field and the
`confusion_matrix` 2-D array (line 10-11 / mutated at lines 91-92). -/
structure ConfusionMatrix where
  num_classes : Nat
  confusion_matrix : List (List Nat)
  deriving Repr, DecidableEq

/-- Model of `np.zeros((m, m))` (line 87): an `m × m` table of zeros. -/
def npZeros2 (m : Nat) : List (List Nat) :=
  List.replicate m (List.replicate m 0)

/-- A numpy `dtype` argument: either the default `float64`, or a plain
Python `int` object passed where a dtype is expected (which numpy
rejects with `TypeError: Cannot interpret ... as a data type`). -/
inductive NpDtype where
  | float64 : NpDtype
  | pyInt : Int → NpDtype
  deriving Repr, DecidableEq

/-- Model of the 1-D call `np.zeros(shape, dtype)`: succeeds with a
zero vector for a valid dtype, raises `TypeError` when a plain int is
passed as the dtype. -/
def npZeros1 (shape : Nat) (dtype : NpDtype) : Except String (List Nat) :=
  match dtype with
  | NpDtype.float64 => Except.ok (List.replicate shape 0)
  | NpDtype.pyInt _ => Except.error "TypeError: Cannot interpret int as a data type"

/-- `__init__` (lines 9-11): `np.zeros(self.num_classes, self.num_classes)`.
The second positional argument of `np.zeros` is the dtype, so
`num_classes` is passed as a dtype; construction raises `TypeError`.
(Had the dtype been valid, the result would be a 1-D vector, modelled
here as a single-row table.) -/
def ConfusionMatrix.init (num_classes : Nat) : Except String ConfusionMatrix :=
  match npZeros1 num_classes (NpDtype.pyInt num_classes) with
  | Except.error e => Except.error e
  | Except.ok v => Except.ok ⟨num_classes, [v]⟩

/-- The accumulator state the constructor is intended to produce (and
which lines 87-92 re-establish after every resize): `num_classes = n`
with an `n × n` zero table, as in `np.zeros((n, n))`. -/
def freshState (n : Nat) : ConfusionMatrix :=
  ⟨n, npZeros2 n⟩

/-- The count stored at row `g`, column `p`, reading 0 outside the
allocated table. -/
def cellF (s : ConfusionMatrix) (g p : Nat) : Nat :=
  (s.confusion_matrix.getD g []).getD p 0

/-- Well-formedness: the table is square of side `num_classes`
(spec invariant; maintained by the source's resize code). -/
def WF (s : ConfusionMatrix) : Prop :=
  s.confusion_matrix.length = s.num_classes ∧
    ∀ row ∈ s.confusion_matrix, row.length = s.num_classes

instance (s : ConfusionMatrix) : Decidable (WF s) :=
  inferInstanceAs (Decidable (_ ∧ _))

/-- Python/numpy index resolution on an axis of length `len`:
a non-negative index must be `< len`; a negative index `i` wraps to
`len + i` when `-len ≤ i`; anything else raises `IndexError` (`none`). -/
def pyIdx (len : Nat) (i : Int) : Option Nat :=
  if 0 ≤ i then (if i < (len : Int) then some i.toNat else none)
  else (if -(len : Int) ≤ i then some (i + (len : Int)).toNat else none)

/-- `count_predicted` (lines 13-14):
`self.confusion_matrix[ground_truth][predicted] += 1`, with numpy
indexing semantics on both axes; `none` models a raised `IndexError`. -/
def count_predicted (s : ConfusionMatrix) (ground_truth predicted : Int) :
    Option ConfusionMatrix :=
  match pyIdx s.confusion_matrix.length ground_truth with
  | none => none
  | some r =>
    let row := s.confusion_matrix.getD r []
    match pyIdx row.length predicted with
    | none => none
    | some c =>
      some { s with confusion_matrix :=
        s.confusion_matrix.set r (row.set c (row.getD c 0 + 1)) }

/-- `get_count` (lines 16-18). -/
def get_count (s : ConfusionMatrix) (ground_truth predicted : Nat) : Nat :=
  cellF s ground_truth predicted

/-- The clamp of line 79: `max([min([label_cl_, 10000]), 1])`. -/
def clampLabel (x : Int) : Int :=
  max (min x 10000) 1

/-- The resize block of lines 87-92: allocate
`b = np.zeros((max_label, max_label))`, copy the old
`num_classes × num_classes` block into the top-left corner, install `b`
as the table and update `num_classes`. -/
def resizeTo (s : ConfusionMatrix) (max_label : Nat) : ConfusionMatrix :=
  { num_classes := max_label
    confusion_matrix :=
      (List.range max_label).map fun row =>
        (List.range max_label).map fun column =>
          if row < s.num_classes ∧ column < s.num_classes then
            cellF s row column
          else 0 }

/-- Outcome of a Python function call: a returned value (`value none`
models Python's implicit `return None`) or an uncaught exception. -/
inductive PyRet where
  | value : Option Int → PyRet
  | exc : PyRet
  deriving Repr, DecidableEq

/-- Outcome of one iteration of the loop of lines 76-97: either a
`return` statement fired (with the state at that moment), or the
iteration fell through / hit `continue` and the loop proceeds with the
updated state. -/
inductive StepOut where
  | ret : PyRet → ConfusionMatrix → StepOut
  | cont : ConfusionMatrix → StepOut
  deriving Repr, DecidableEq

/-- The loop body of `build_conf_matrix_from_file` (lines 77-97) on one
pair of parsed labels: clamp-validate the predicted label (`return -1`
on mismatch, lines 79-83), resize when
`max(label_gt, label_cl) > num_classes` (lines 84-92), `continue` when
`label_gt == 0` (lines 94-95), otherwise increment one cell and —
the source's `return 0` sitting inside the loop — return success
(lines 96-97). `IndexError` from the increment is modelled as `exc`. -/
def buildStep (s : ConfusionMatrix) (line_gt line_cl : Int) : StepOut :=
  let label_gt := line_gt
  let label_cl := clampLabel line_cl
  if line_cl ≠ label_cl then StepOut.ret (PyRet.value (some (-1))) s
  else
    let max_label := max label_gt label_cl
    let s1 := if (s.num_classes : Int) < max_label then resizeTo s max_label.toNat else s
    if label_gt = 0 then StepOut.cont s1
    else
      match count_predicted s1 (label_gt - 1) (label_cl - 1) with
      | some s2 => StepOut.ret (PyRet.value (some 0)) s2
      | none => StepOut.ret PyRet.exc s1

/-- `build_conf_matrix_from_file` (lines 73-97), over the parsed integer
labels of the two files: `zip` pairs lines in lockstep until the
shorter stream ends, running `buildStep` on each pair; falling off the
loop returns Python `None`. -/
def build_conf_matrix_from_file (s : ConfusionMatrix) :
    List Int → List Int → PyRet × ConfusionMatrix
  | line_gt :: rest_gt, line_cl :: rest_cl =>
    match buildStep s line_gt line_cl with
    | StepOut.ret r s2 => (r, s2)
    | StepOut.cont s1 => build_conf_matrix_from_file s1 rest_gt rest_cl
  | _, _ => (PyRet.value none, s)

/-- `get_intersection_union_per_class` (lines 27-54), with the float
division modelled exactly in `ℚ`. -/
def get_intersection_union_per_class (s : ConfusionMatrix) : List ℚ :=
  let n := s.num_classes
  let matrix_diagonal : List Nat := (List.range n).map fun i => cellF s i i
  let errors_summed_by_row : List Nat := (List.range n).map fun row =>
    (List.range n).foldl
      (fun acc column => if row ≠ column then acc + cellF s row column else acc) 0
  let errors_summed_by_column : List Nat := (List.range n).map fun column =>
    (List.range n).foldl
      (fun acc row => if row ≠ column then acc + cellF s row column else acc) 0
  let divisor : List Nat := (List.range n).map fun i =>
    if matrix_diagonal.getD i 0 = 0 then 1
    else matrix_diagonal.getD i 0 + errors_summed_by_row.getD i 0
      + errors_summed_by_column.getD i 0
  (List.range n).map fun i =>
    (matrix_diagonal.getD i 0 : ℚ) / (divisor.getD i 0 : ℚ)

/-- Sum of all cells of the table. -/
def tableSum (s : ConfusionMatrix) : Nat :=
  (s.confusion_matrix.map List.sum).sum

/-- A sequence of `count_predicted` calls applied in order;
`none` models a raised `IndexError` in one of the calls. -/
def runRecords : ConfusionMatrix → List (Int × Int) → Option ConfusionMatrix
  | s, [] => some s
  | s, (g, p) :: rest =>
    match count_predicted s g p with
    | some s1 => runRecords s1 rest
    | none => none

/-- Blank padding of one column (`empty_cell`, line 105). -/
def emptyCell (columnwidth : Nat) : String :=
  String.mk (List.replicate columnwidth ' ')

/-- The formatted cell `"%{w}.0f" % v` (line 115): the count
right-justified to the column width. -/
def formatCell (columnwidth : Nat) (v : Nat) : String :=
  String.mk (List.replicate (columnwidth - (toString v).length) ' ') ++ toString v

/-- Python truthiness of the `hide_threshold` argument as used by
`if hide_threshold:` (line 120): `None` and `0` are falsy. -/
def pyTruthy (hide_threshold : Option Int) : Bool :=
  match hide_threshold with
  | none => false
  | some t => decide (t ≠ 0)

/-- The per-cell suppression logic of `print_cm` (lines 114-122) for the
cell at row `i`, column `j` holding count `v`. -/
def renderCell (columnwidth : Nat) (v i j : Nat)
    (hide_zeroes hide_diagonal : Bool) (hide_threshold : Option Int) : String :=
  let cell0 := formatCell columnwidth v
  let cell1 := if hide_zeroes then
      (if v ≠ 0 then cell0 else emptyCell columnwidth) else cell0
  let cell2 := if hide_diagonal then
      (if i ≠ j then cell1 else emptyCell columnwidth) else cell1
  if pyTruthy hide_threshold then
    (if (v : Int) > hide_threshold.getD 0 then cell2 else emptyCell columnwidth)
  else cell2

/-- The semantic index a negative-or-valid Python index resolves to. -/
def wrapIdx (n : Nat) (i : Int) : Nat :=
  if i < 0 then (i + (n : Int)).toNat else i.toNat

lemma getD_map_range {α : Type} (f : Nat → α) (n i : Nat) (hi : i < n) (d : α) :
    ((List.range n).map f).getD i d = f i := by
  simp [List.getD_eq_getElem?_getD, List.getElem?_map, List.getElem?_range, hi]

lemma cellF_resize_lt (s : ConfusionMatrix) (n g p : Nat)
    (hg : g < n) (hp : p < n) :
    cellF (resizeTo s n) g p
      = if g < s.num_classes ∧ p < s.num_classes then cellF s g p else 0 := by
  show ((((List.range n).map _).getD g []).getD p 0) = _
  rw [getD_map_range _ n g hg, getD_map_range _ n p hp]

/-- Unfolding equation of the loop on a pair of first lines. -/
lemma build_cons_eq (s : ConfusionMatrix) (a b : Int) (l1 l2 : List Int) :
    build_conf_matrix_from_file s (a :: l1) (b :: l2)
      = match buildStep s a b with
        | StepOut.ret r s2 => (r, s2)
        | StepOut.cont s1 => build_conf_matrix_from_file s1 l1 l2 := by
  rfl

/-- On an invalid predicted label (lines 79-83) the loop body returns
`-1` at once, leaving the state untouched. -/
lemma buildStep_invalid (s : ConfusionMatrix) (g c : Int)
    (h : clampLabel c ≠ c) :
    buildStep s g c = StepOut.ret (PyRet.value (some (-1))) s := by
  unfold buildStep
  simp [Ne.symm h]

/-- On a pair with ground truth `0` and a valid predicted label, the
loop body resizes if needed (lines 84-92) and continues (lines 94-95). -/
lemma buildStep_skip (s : ConfusionMatrix) (c : Int)
    (h : clampLabel c = c) :
    ∃ s1, buildStep s 0 c = StepOut.cont s1 := by
  unfold buildStep
  simp [h]

lemma cellF_out_of_bounds (s : ConfusionMatrix) (hwf : WF s) (a b : Nat)
    (h : s.num_classes ≤ a ∨ s.num_classes ≤ b) :
    cellF s a b = 0 := by
  have hL : s.confusion_matrix.length = s.num_classes := hwf.1
  unfold cellF
  by_cases ha : a < s.confusion_matrix.length
  · have hrow : s.confusion_matrix.getD a [] ∈ s.confusion_matrix := by
      rw [List.getD_eq_getElem s.confusion_matrix [] ha]
      exact List.getElem_mem ha
    have hlen : (s.confusion_matrix.getD a []).length = s.num_classes :=
      hwf.2 _ hrow
    have hb : (s.confusion_matrix.getD a []).length ≤ b := by
      rcases h with h | h
      · exact absurd ha (by omega)
      · omega
    exact List.getD_eq_default _ _ hb
  · have h1 : s.confusion_matrix.getD a [] = [] :=
      List.getD_eq_default _ _ (by omega)
    rw [h1]
    rfl

lemma WF_resizeTo (s : ConfusionMatrix) (m : Nat) : WF (resizeTo s m) := by
  constructor
  · simp [resizeTo]
  · intro row hrow
    simp only [resizeTo, List.mem_map] at hrow
    obtain ⟨i, _, hi⟩ := hrow
    simp [resizeTo, ← hi]

/-- Growing the table never changes the count stored at any position
(reading 0 outside the allocated block). -/
lemma cellF_resizeTo_eq (s : ConfusionMatrix) (hwf : WF s) (m : Nat)
    (hm : s.num_classes ≤ m) (a b : Nat) :
    cellF (resizeTo s m) a b = cellF s a b := by
  by_cases ha : a < m
  · by_cases hb : b < m
    · rw [cellF_resize_lt s m a b ha hb]
      by_cases hab : a < s.num_classes ∧ b < s.num_classes
      · simp [hab]
      · rw [if_neg hab, cellF_out_of_bounds s hwf a b (by omega)]
    · rw [cellF_out_of_bounds (resizeTo s m) (WF_resizeTo s m) a b (by simp [resizeTo]; omega),
        cellF_out_of_bounds s hwf a b (by omega)]
  · rw [cellF_out_of_bounds (resizeTo s m) (WF_resizeTo s m) a b (by simp [resizeTo]; omega),
      cellF_out_of_bounds s hwf a b (by omega)]

/-- Skip-line analysis with state tracking: on ground truth `0` with a
valid predicted label the loop continues with a state holding exactly
the same counts. -/
lemma buildStep_skip_spec (s : ConfusionMatrix) (c : Int) (hwf : WF s)
    (h : clampLabel c = c) :
    ∃ s1, buildStep s 0 c = StepOut.cont s1 ∧ WF s1 ∧
      s.num_classes ≤ s1.num_classes ∧
      ∀ a b, cellF s1 a b = cellF s a b := by
  unfold buildStep
  simp only [h, ne_eq, not_true_eq_false, if_false, if_pos rfl]
  by_cases hc : (s.num_classes : Int) < max 0 c
  · refine ⟨resizeTo s (max 0 c).toNat, by simp [hc], WF_resizeTo _ _, ?_, ?_⟩
    · simp only [resizeTo]
      omega
    · exact cellF_resizeTo_eq s hwf _ (by omega)
  · exact ⟨s, by simp [hc], hwf, le_refl _, fun a b => rfl⟩

lemma pyIdx_wrap (n : Nat) (i : Int) (h1 : -(n : Int) ≤ i) (h2 : i < (n : Int)) :
    pyIdx n i = some (wrapIdx n i) ∧ wrapIdx n i < n := by
  unfold pyIdx wrapIdx
  by_cases h0 : 0 ≤ i
  · rw [if_pos h0, if_pos h2, if_neg (by omega)]
    exact ⟨rfl, by omega⟩
  · rw [if_neg h0, if_pos h1, if_pos (by omega)]
    exact ⟨rfl, by omega⟩

lemma getD_set_self {α : Type} (l : List α) (i : Nat) (x d : α)
    (h : i < l.length) :
    (l.set i x).getD i d = x := by
  induction l generalizing i with
  | nil => simp at h
  | cons y ys ih =>
    cases i with
    | zero => rfl
    | succ j => exact ih j (by simpa using h)

lemma sum_set_getD_add_one (l : List Nat) (c : Nat) (h : c < l.length) :
    (l.set c (l.getD c 0 + 1)).sum = l.sum + 1 := by
  induction l generalizing c with
  | nil => simp at h
  | cons x xs ih =>
    cases c with
    | zero =>
      simp only [List.getD_cons_zero, List.set_cons_zero, List.sum_cons]
      omega
    | succ j =>
      have hj := ih j (by simpa using h)
      simp only [List.getD_cons_succ, List.set_cons_succ, List.sum_cons]
      omega

lemma mapSum_set (m : List (List Nat)) (r : Nat) (nr : List Nat)
    (h : r < m.length) :
    ((m.set r nr).map List.sum).sum + (m.getD r []).sum
      = (m.map List.sum).sum + nr.sum := by
  induction m generalizing r with
  | nil => simp at h
  | cons x xs ih =>
    cases r with
    | zero =>
      simp only [List.getD_cons_zero, List.set_cons_zero, List.map_cons,
        List.sum_cons]
      omega
    | succ j =>
      have hj := ih j (by simpa using h)
      simp only [List.getD_cons_succ, List.set_cons_succ, List.map_cons,
        List.sum_cons]
      omega

/-- Full behaviour of one in-range `count_predicted` call (possibly with
negative, wrapping indices): it succeeds, keeps the table well-formed and
the class count unchanged, increments the resolved cell, and grows the
grand total by one. -/
lemma count_predicted_spec (s : ConfusionMatrix) (hwf : WF s) (g p : Int)
    (hg1 : -(s.num_classes : Int) ≤ g) (hg2 : g < (s.num_classes : Int))
    (hp1 : -(s.num_classes : Int) ≤ p) (hp2 : p < (s.num_classes : Int)) :
    ∃ s1, count_predicted s g p = some s1 ∧ WF s1 ∧
      s1.num_classes = s.num_classes ∧
      cellF s1 (wrapIdx s.num_classes g) (wrapIdx s.num_classes p)
        = cellF s (wrapIdx s.num_classes g) (wrapIdx s.num_classes p) + 1 ∧
      tableSum s1 = tableSum s + 1 := by
  obtain ⟨hL, hrows⟩ := hwf
  obtain ⟨hpg, hgbound⟩ := pyIdx_wrap s.num_classes g hg1 hg2
  obtain ⟨hpp, hpbound⟩ := pyIdx_wrap s.num_classes p hp1 hp2
  have hrowmem : s.confusion_matrix.getD (wrapIdx s.num_classes g) []
      ∈ s.confusion_matrix := by
    rw [List.getD_eq_getElem s.confusion_matrix [] (by omega)]
    exact List.getElem_mem (by omega)
  have hrlen : (s.confusion_matrix.getD (wrapIdx s.num_classes g) []).length
      = s.num_classes := hrows _ hrowmem
  have heq : count_predicted s g p = some
      ⟨s.num_classes,
        s.confusion_matrix.set (wrapIdx s.num_classes g)
          ((s.confusion_matrix.getD (wrapIdx s.num_classes g) []).set
            (wrapIdx s.num_classes p)
            ((s.confusion_matrix.getD (wrapIdx s.num_classes g) []).getD
              (wrapIdx s.num_classes p) 0 + 1))⟩ := by
    simp only [count_predicted, hL, hpg, hrlen, hpp]
  refine ⟨_, heq, ⟨?_, ?_⟩, rfl, ?_, ?_⟩
  · simp only [List.length_set]
    exact hL
  · intro row hrow
    rcases List.mem_or_eq_of_mem_set hrow with hmem | hset
    · exact hrows _ hmem
    · rw [hset, List.length_set]
      exact hrlen
  · unfold cellF
    rw [getD_set_self _ _ _ _ (by omega)]
    rw [getD_set_self _ _ _ _ (by omega)]
  · unfold tableSum
    dsimp only
    have hms := mapSum_set s.confusion_matrix (wrapIdx s.num_classes g)
      ((s.confusion_matrix.getD (wrapIdx s.num_classes g) []).set
        (wrapIdx s.num_classes p)
        ((s.confusion_matrix.getD (wrapIdx s.num_classes g) []).getD
          (wrapIdx s.num_classes p) 0 + 1)) (by omega)
    have hss := sum_set_getD_add_one
      (s.confusion_matrix.getD (wrapIdx s.num_classes g) [])
      (wrapIdx s.num_classes p) (by omega)
    omega

lemma foldl_add_ite (q : Nat → Prop) [DecidablePred q] (f : Nat → Nat)
    (l : List Nat) (init : Nat) :
    l.foldl (fun acc c => if q c then acc + f c else acc) init
      = init + (l.map fun c => if q c then f c else 0).sum := by
  induction l generalizing init with
  | nil => simp
  | cons x xs ih =>
    simp only [List.foldl_cons, List.map_cons, List.sum_cons, ih]
    split_ifs <;> omega

lemma sum_map_range (g : Nat → Nat) (n : Nat) :
    ((List.range n).map g).sum = ∑ i ∈ Finset.range n, g i := by
  induction n with
  | zero => simp
  | succ m ih =>
    rw [List.range_succ, Finset.sum_range_succ]
    simp [ih]

lemma WF_freshState (n : Nat) : WF (freshState n) := by
  constructor
  · simp [freshState, npZeros2]
  · intro row hrow
    simp only [freshState, npZeros2] at hrow
    rw [List.eq_of_mem_replicate hrow]
    simp [freshState]

lemma tableSum_freshState (n : Nat) : tableSum (freshState n) = 0 := by
  simp [tableSum, freshState, npZeros2, List.map_replicate, List.sum_replicate]

/-- The state after a run of valid `count_predicted` calls: success, the
shape invariant and class count are kept, and the grand total grows by
exactly the number of calls. -/
lemma runRecords_spec (calls : List (Int × Int)) :
    ∀ s : ConfusionMatrix, WF s →
    (∀ gp ∈ calls, 0 ≤ gp.1 ∧ gp.1 < (s.num_classes : Int) ∧
      0 ≤ gp.2 ∧ gp.2 < (s.num_classes : Int)) →
    ∃ s1, runRecords s calls = some s1 ∧ WF s1 ∧
      s1.num_classes = s.num_classes ∧
      tableSum s1 = tableSum s + calls.length := by
  induction calls with
  | nil => exact fun s hwf _ => ⟨s, rfl, hwf, rfl, by simp⟩
  | cons gp rest ih =>
    intro s hwf hvalid
    obtain ⟨g, p⟩ := gp
    obtain ⟨hg0, hgn, hp0, hpn⟩ := hvalid (g, p) (List.mem_cons_self _ _)
    obtain ⟨s1, heq, hwf1, hn1, _, hsum1⟩ :=
      count_predicted_spec s hwf g p (by omega) hgn (by omega) hpn
    have hrun : runRecords s ((g, p) :: rest) = runRecords s1 rest := by
      show (match count_predicted s g p with
        | some s2 => runRecords s2 rest
        | none => none) = runRecords s1 rest
      rw [heq]
    obtain ⟨s2, heq2, hwf2, hn2, hsum2⟩ := ih s1 hwf1 (fun q hq => by
      rw [hn1]
      exact hvalid q (List.mem_cons_of_mem _ hq))
    refine ⟨s2, by rw [hrun, heq2], hwf2, by rw [hn2, hn1], ?_⟩
    rw [hsum2, hsum1]
    simp only [List.length_cons]
    omega

end Metric

namespace Metric

/-- Claim C1: the constructor is intended to build a `classCount × classCount`
zero table, but `np.zeros(self.num_classes, self.num_classes)` passes
`num_classes` as the dtype argument, so construction raises `TypeError`
for every class count. -/
theorem init_raises_typeError (n : Nat) (_h : 1 ≤ n) :
    ConfusionMatrix.init n
      = Except.error "TypeError: Cannot interpret int as a data type" := by
  rfl

/-- Witness for C1 at the repository's own demo input `ConfusionMatrix(3)`
(line 127). -/
theorem init_raises_typeError_witness :
    1 ≤ 3 ∧ ConfusionMatrix.init 3
      = Except.error "TypeError: Cannot interpret int as a data type" :=
  ⟨by decide, init_raises_typeError 3 (by decide)⟩

/-- Claim C2: the loop body's `return 0` (line 97) makes the bulk load
return success right after the first recorded pair. On the streams
`[1, 1]` / `[1, 2]` from a fresh 3-class accumulator it returns `0`
with only cell `(0, 0)` incremented; the second pair is never
processed (cell `(0, 1)` stays `0`). -/
theorem build_returns_after_first_pair :
    build_conf_matrix_from_file (freshState 3) [1, 1] [1, 2]
      = (PyRet.value (some 0), ⟨3, [[1, 0, 0], [0, 0, 0], [0, 0, 0]]⟩) := by
  decide

/-- Claim C3: whenever the loop reaches a paired line whose predicted
label is changed by the clamp into `[1, 10000]` — i.e. every earlier
pair was skipped (ground truth `0`) with a valid predicted label — the
whole load returns the failure status `-1` (a returned value, not an
exception). -/
theorem build_aborts_on_invalid_label (gt_pre cl_pre : List Int)
    (hlen : gt_pre.length = cl_pre.length)
    (hgt : ∀ x ∈ gt_pre, x = 0)
    (hcl : ∀ x ∈ cl_pre, clampLabel x = x)
    (g c : Int) (hc : clampLabel c ≠ c)
    (gts cls : List Int) (s : ConfusionMatrix) :
    (build_conf_matrix_from_file s (gt_pre ++ g :: gts) (cl_pre ++ c :: cls)).1
      = PyRet.value (some (-1)) := by
  induction gt_pre generalizing cl_pre s with
  | nil =>
    cases cl_pre with
    | nil =>
      rw [List.nil_append, List.nil_append, build_cons_eq,
        buildStep_invalid s g c hc]
    | cons y ys => simp at hlen
  | cons x xs ih =>
    cases cl_pre with
    | nil => simp at hlen
    | cons y ys =>
      have hx : x = 0 := hgt x (List.mem_cons_self x xs)
      have hy : clampLabel y = y := hcl y (List.mem_cons_self y ys)
      obtain ⟨s1, hs1⟩ := buildStep_skip s y hy
      rw [List.cons_append, List.cons_append, hx, build_cons_eq, hs1]
      exact ih ys (by simpa using hlen)
        (fun z hz => hgt z (List.mem_cons_of_mem x hz))
        (fun z hz => hcl z (List.mem_cons_of_mem y hz)) s1

/-- Witness for C3: a fresh 3-class accumulator, first pair skipped
(`0` / `2`), second pair's predicted label `20000` is clamped. -/
theorem build_aborts_on_invalid_label_witness :
    ([(0 : Int)].length = [(2 : Int)].length ∧ (∀ x ∈ [(0 : Int)], x = 0) ∧
      (∀ x ∈ [(2 : Int)], clampLabel x = x) ∧ clampLabel 20000 ≠ 20000) ∧
    (build_conf_matrix_from_file (freshState 3)
        ([0] ++ 1 :: []) ([2] ++ 20000 :: [])).1 = PyRet.value (some (-1)) :=
  ⟨⟨by decide, by decide, by decide, by decide⟩,
    build_aborts_on_invalid_label [0] [2] (by decide) (by decide) (by decide)
      1 20000 (by decide) [] [] (freshState 3)⟩

/-- Counterexample for C4: from a fresh 3-class accumulator, the streams
`[0, 1]` / `[5, 20000]` make the load fail with `-1`, yet the first
(skipped) pair already resized the table, so `classCount` after the
failed call is `5`, not the `3` it was before the call. -/
theorem build_fail_changes_classCount :
    (build_conf_matrix_from_file (freshState 3) [0, 1] [5, 20000]).1
        = PyRet.value (some (-1)) ∧
      (build_conf_matrix_from_file (freshState 3) [0, 1] [5, 20000]).2.num_classes = 5 ∧
      (freshState 3).num_classes = 3 := by
  decide

/-- Claim C4 (amended): when the invalid predicted label occurs on the
first paired line, the failed call leaves the whole accumulator — in
particular `classCount` — unchanged; a failure on a later line may
leave `classCount` enlarged by resizes performed for earlier skipped
pairs. -/
theorem build_fail_first_line_preserves_state (s : ConfusionMatrix) (g c : Int)
    (gts cls : List Int) (h : clampLabel c ≠ c) :
    build_conf_matrix_from_file s (g :: gts) (c :: cls)
        = (PyRet.value (some (-1)), s) := by
  rw [build_cons_eq, buildStep_invalid s g c h]

/-- Witness for C4's amended claim at predicted label `0` on the first line. -/
theorem build_fail_first_line_preserves_state_witness :
    clampLabel 0 ≠ 0 ∧
      build_conf_matrix_from_file (freshState 3) [1] [0]
        = (PyRet.value (some (-1)), freshState 3) :=
  ⟨by decide, build_fail_first_line_preserves_state (freshState 3) 1 0 [] [] (by decide)⟩

/-- Claim C6: resizing from `classCount` to a larger `n` preserves every
previously allocated cell, zero-fills every newly exposed cell, and
sets `classCount` to `n`. -/
theorem resize_preserves_counts (s : ConfusionMatrix) (n : Nat)
    (h : s.num_classes < n) :
    (resizeTo s n).num_classes = n ∧
    (∀ g p, g < s.num_classes → p < s.num_classes →
      cellF (resizeTo s n) g p = cellF s g p) ∧
    (∀ g p, g < n → p < n → (s.num_classes ≤ g ∨ s.num_classes ≤ p) →
      cellF (resizeTo s n) g p = 0) := by
  refine ⟨rfl, ?_, ?_⟩
  · intro g p hg hp
    rw [cellF_resize_lt s n g p (hg.trans h) (hp.trans h)]
    simp [hg, hp]
  · intro g p hg hp hout
    rw [cellF_resize_lt s n g p hg hp]
    rcases hout with h1 | h1 <;> simp [Nat.not_lt.mpr h1]

/-- Witness for C6: a populated 2-class table resized to 3 classes. -/
theorem resize_preserves_counts_witness :
    (2 : Nat) < 3 ∧
      ((resizeTo ⟨2, [[1, 2], [3, 4]]⟩ 3).num_classes = 3 ∧
      (∀ g p, g < (2 : Nat) → p < (2 : Nat) →
        cellF (resizeTo ⟨2, [[1, 2], [3, 4]]⟩ 3) g p = cellF ⟨2, [[1, 2], [3, 4]]⟩ g p) ∧
      (∀ g p, g < 3 → p < 3 → ((2 : Nat) ≤ g ∨ (2 : Nat) ≤ p) →
        cellF (resizeTo ⟨2, [[1, 2], [3, 4]]⟩ 3) g p = 0)) :=
  ⟨by decide, resize_preserves_counts ⟨2, [[1, 2], [3, 4]]⟩ 3 (by decide)⟩

/-- Claim C7: starting from a fresh accumulator, after any sequence of
`count_predicted` calls with indices in `[0, classCount)` the sum of
all table cells equals the number of calls. -/
theorem record_sum_equals_call_count (n : Nat) (calls : List (Int × Int))
    (h : ∀ gp ∈ calls, 0 ≤ gp.1 ∧ gp.1 < (n : Int) ∧
      0 ≤ gp.2 ∧ gp.2 < (n : Int)) :
    ∃ s1, runRecords (freshState n) calls = some s1 ∧
      tableSum s1 = calls.length := by
  obtain ⟨s1, heq, _, _, hsum⟩ :=
    runRecords_spec calls (freshState n) (WF_freshState n) h
  refine ⟨s1, heq, ?_⟩
  rw [hsum, tableSum_freshState]
  omega

/-- Witness for C7: the repository demo's five calls on a 3-class
accumulator (lines 127-132). -/
theorem record_sum_equals_call_count_witness :
    (∀ gp ∈ [((0 : Int), (0 : Int)), (1, 1), (2, 2), (0, 1), (2, 0)],
      0 ≤ gp.1 ∧ gp.1 < (3 : Int) ∧ 0 ≤ gp.2 ∧ gp.2 < (3 : Int)) ∧
    ∃ s1, runRecords (freshState 3)
        [(0, 0), (1, 1), (2, 2), (0, 1), (2, 0)] = some s1 ∧
      tableSum s1 = [((0 : Int), (0 : Int)), (1, 1), (2, 2), (0, 1), (2, 0)].length :=
  ⟨by decide,
    record_sum_equals_call_count 3 [(0, 0), (1, 1), (2, 2), (0, 1), (2, 0)]
      (by decide)⟩

/-- Claim C8: on a paired line with ground-truth label `0`, no table
cell is incremented: either the line fails clamp validation (the call
returns `-1` with the state untouched), or the pair is skipped and the
loop continues with every cell count unchanged (the table may have been
resized for this line, which preserves all counts). -/
theorem skip_line_leaves_counts (s : ConfusionMatrix) (c : Int)
    (gts cls : List Int) (hwf : WF s) :
    (build_conf_matrix_from_file s (0 :: gts) (c :: cls)
        = (PyRet.value (some (-1)), s)) ∨
      ∃ s1, build_conf_matrix_from_file s (0 :: gts) (c :: cls)
          = build_conf_matrix_from_file s1 gts cls ∧
        ∀ a b, cellF s1 a b = cellF s a b := by
  by_cases hv : clampLabel c = c
  · right
    obtain ⟨s1, hs1, _, _, hcell⟩ := buildStep_skip_spec s c hwf hv
    exact ⟨s1, by rw [build_cons_eq, hs1], hcell⟩
  · left
    rw [build_cons_eq, buildStep_invalid s 0 c hv]

/-- Witness for C8: a fresh 3-class accumulator and a skipped pair
`(0, 5)` that forces a resize. -/
theorem skip_line_leaves_counts_witness :
    WF (freshState 3) ∧
      ((build_conf_matrix_from_file (freshState 3) (0 :: [1]) (5 :: [1])
          = (PyRet.value (some (-1)), freshState 3)) ∨
        ∃ s1, build_conf_matrix_from_file (freshState 3) (0 :: [1]) (5 :: [1])
            = build_conf_matrix_from_file s1 [1] [1] ∧
          ∀ a b, cellF s1 a b = cellF (freshState 3) a b) :=
  ⟨WF_freshState 3, skip_line_leaves_counts (freshState 3) 5 [1] [1] (WF_freshState 3)⟩

/-- Claim C10: `count_predicted` with a negative ground-truth index
`g ∈ [-classCount, -1]` (and an in-range predicted index, itself
possibly negative) raises no error: it succeeds and silently increments
the wrapped-around cell, at row `classCount + g`. -/
theorem record_negative_index_wraps (s : ConfusionMatrix) (g p : Int)
    (hwf : WF s)
    (hg1 : -(s.num_classes : Int) ≤ g) (hg2 : g < (s.num_classes : Int))
    (hp1 : -(s.num_classes : Int) ≤ p) (hp2 : p < (s.num_classes : Int))
    (hneg : g < 0 ∨ p < 0) :
    ∃ s1, count_predicted s g p = some s1 ∧
      cellF s1 (wrapIdx s.num_classes g) (wrapIdx s.num_classes p)
        = cellF s (wrapIdx s.num_classes g) (wrapIdx s.num_classes p) + 1 := by
  obtain ⟨s1, heq, _, _, hcell, _⟩ := count_predicted_spec s hwf g p hg1 hg2 hp1 hp2
  rcases hneg with _ | _ <;> exact ⟨s1, heq, hcell⟩

/-- Witness for C10: on a 3-class accumulator holding a count at cell
`(2, 0)`, the call `count_predicted (-1) 0` silently bumps that valid
cell (wrapped row `3 + (-1) = 2`). -/
theorem record_negative_index_wraps_witness :
    (WF ⟨3, [[0, 0, 0], [0, 0, 0], [7, 0, 0]]⟩ ∧
      -((3 : Nat) : Int) ≤ -1 ∧ (-1 : Int) < ((3 : Nat) : Int) ∧
      -((3 : Nat) : Int) ≤ 0 ∧ (0 : Int) < ((3 : Nat) : Int) ∧
      ((-1 : Int) < 0 ∨ (0 : Int) < 0)) ∧
    ∃ s1, count_predicted ⟨3, [[0, 0, 0], [0, 0, 0], [7, 0, 0]]⟩ (-1) 0 = some s1 ∧
      cellF s1 (wrapIdx 3 (-1)) (wrapIdx 3 0)
        = cellF ⟨3, [[0, 0, 0], [0, 0, 0], [7, 0, 0]]⟩ (wrapIdx 3 (-1)) (wrapIdx 3 0) + 1 :=
  ⟨⟨by decide, by decide, by decide, by decide, by decide, by decide⟩,
    record_negative_index_wraps ⟨3, [[0, 0, 0], [0, 0, 0], [7, 0, 0]]⟩ (-1) 0
      (by decide) (by decide) (by decide) (by decide) (by decide) (by decide)⟩

/-- Claim C5: `get_intersection_union_per_class` returns a list of
length `classCount` whose entry at each class `c` is
`diag / (diag + rowErr + colErr)` — with the divisor forced to `1` when
`diag = 0` — where `diag = table[c][c]`, `rowErr` sums row `c` off the
diagonal and `colErr` sums column `c` off the diagonal. -/
theorem perClassIoU_formula (s : ConfusionMatrix) (c : Nat)
    (hc : c < s.num_classes) :
    (get_intersection_union_per_class s).length = s.num_classes ∧
    (get_intersection_union_per_class s).getD c 0
      = (cellF s c c : ℚ) /
        (((if cellF s c c = 0 then 1
          else cellF s c c
            + (∑ p ∈ Finset.range s.num_classes, if p ≠ c then cellF s c p else 0)
            + (∑ g ∈ Finset.range s.num_classes, if g ≠ c then cellF s g c else 0)) : Nat) : ℚ) := by
  constructor
  · unfold get_intersection_union_per_class
    simp
  · have hrow : (∑ p ∈ Finset.range s.num_classes, if c ≠ p then cellF s c p else 0)
        = ∑ p ∈ Finset.range s.num_classes, if p ≠ c then cellF s c p else 0 :=
      Finset.sum_congr rfl fun p _ => if_congr ne_comm rfl rfl
    unfold get_intersection_union_per_class
    simp only [getD_map_range, hc, foldl_add_ite, sum_map_range, Nat.zero_add, hrow]

/-- Witness for C5 at the repository demo table (3 classes, counts from
the five demo calls) and class `0`. -/
theorem perClassIoU_formula_witness :
    (0 : Nat) < (3 : Nat) ∧
    ((get_intersection_union_per_class ⟨3, [[1, 1, 0], [0, 1, 0], [1, 0, 1]]⟩).length = 3 ∧
    (get_intersection_union_per_class ⟨3, [[1, 1, 0], [0, 1, 0], [1, 0, 1]]⟩).getD 0 0
      = (cellF ⟨3, [[1, 1, 0], [0, 1, 0], [1, 0, 1]]⟩ 0 0 : ℚ) /
        (((if cellF ⟨3, [[1, 1, 0], [0, 1, 0], [1, 0, 1]]⟩ 0 0 = 0 then 1
          else cellF ⟨3, [[1, 1, 0], [0, 1, 0], [1, 0, 1]]⟩ 0 0
            + (∑ p ∈ Finset.range 3,
                if p ≠ 0 then cellF ⟨3, [[1, 1, 0], [0, 1, 0], [1, 0, 1]]⟩ 0 p else 0)
            + (∑ g ∈ Finset.range 3,
                if g ≠ 0 then cellF ⟨3, [[1, 1, 0], [0, 1, 0], [1, 0, 1]]⟩ g 0 else 0)) : Nat) : ℚ)) :=
  ⟨by decide, perClassIoU_formula ⟨3, [[1, 1, 0], [0, 1, 0], [1, 0, 1]]⟩ 0 (by decide)⟩

/-- Counterexample for C9: with `hideThreshold = 0` the cell value `0`
does not exceed the threshold, so the claim requires blank padding —
but `if hide_threshold:` is false for `0`, so the cell is rendered
as the number, not blanked. -/
theorem renderCell_threshold_zero_not_blanked :
    (0 : Int) ≤ 0 ∧
      renderCell 5 0 0 1 false false (some 0) = formatCell 5 0 ∧
      formatCell 5 0 ≠ emptyCell 5 := by
  refine ⟨by decide, rfl, ?_⟩
  decide

/-- Claim C9 (amended): a cell is replaced by blank padding exactly when
`hideZeroes` holds and the value is `0`, or `hideDiagonal` holds and the
cell is diagonal, or `hideThreshold` is truthy (neither `None` nor `0`)
and the value does not exceed it; otherwise the formatted count is
rendered. With `hideThreshold` equal to `0` (or `None`) no threshold
suppression happens at all. Rendering never mutates the table. -/
theorem renderCell_suppression (columnwidth v i j : Nat)
    (hide_zeroes hide_diagonal : Bool) (hide_threshold : Option Int) :
    renderCell columnwidth v i j hide_zeroes hide_diagonal hide_threshold
      = if (hide_zeroes = true ∧ v = 0) ∨ (hide_diagonal = true ∧ i = j)
          ∨ (pyTruthy hide_threshold = true ∧ (v : Int) ≤ hide_threshold.getD 0)
        then emptyCell columnwidth
        else formatCell columnwidth v := by
  unfold renderCell
  cases hide_zeroes <;> cases hide_diagonal <;>
    split_ifs <;> simp_all <;> omega

end Metric
